import Mathlib

/-!
# Verification of the expenses store (src/src/window.py)

A shallow embedding of the persistence-and-state core of the expenses
application: the in-memory document (`self.data`), the load/save/normalize
logic, and the account / expense handlers of `ExpensesWindow`.

Python dicts are modelled as insertion-ordered association lists
(`List (String × List Expense)`), matching CPython's ordered-dict
semantics: assigning to an existing key updates it in place, assigning
to a fresh key appends it at the end.  Amounts are modelled as rationals;
the relevant fragment of Python's `float` literal parsing (optional sign,
decimal digits, optional fractional part) is modelled by `pyFloat`.
-/

namespace Expenses

/-- An expense record: `{'amount': ..., 'payee': ..., 'date': ...}`
(window.py lines 225-229). -/
structure Expense where
  amount : ℚ
  payee : String
  date : String
deriving DecidableEq, Repr

/-- The `self.data['expenses']` dict: account name ↦ expense list,
in insertion order. -/
abbrev ExpenseMap := List (String × List Expense)

/-- The in-memory document `self.data` (window.py lines 41-45). -/
structure Document where
  accounts : List String
  current_account : String
  expenses : ExpenseMap
deriving DecidableEq, Repr

/-- Python `k in d` / `d[k]` on the ordered dict: value of the first
(and only) binding of `k`, if any. -/
def lookupE (m : ExpenseMap) (k : String) : Option (List Expense) :=
  match m with
  | [] => none
  | (k', v) :: rest => if k' = k then some v else lookupE rest k

/-- Python `d[k] = v` on the ordered dict: update in place if `k` is
bound, else append the new binding at the end. -/
def dictSet (m : ExpenseMap) (k : String) (v : List Expense) : ExpenseMap :=
  match m with
  | [] => [(k, v)]
  | (k', v') :: rest => if k' = k then (k, v) :: rest else (k', v') :: dictSet rest k v

/-- The initial value of `self.data` (window.py lines 41-45):
`accounts=['Default']`, `current_account='Default'`, `expenses={}`. -/
def defaultDoc : Document :=
  { accounts := ["Default"], current_account := "Default", expenses := [] }

/-- Models Python's `str.strip()`: removes leading and trailing
whitespace. -/
def pyStrip (s : String) : String :=
  ⟨((s.toList.dropWhile Char.isWhitespace).reverse.dropWhile Char.isWhitespace).reverse⟩

/-- Models Python's `str.replace(',', '.')` (window.py line 222): every
comma becomes a dot. -/
def replaceCommaDot (s : String) : String :=
  ⟨s.toList.map (fun c => if c = ',' then '.' else c)⟩

/-- Handler helper `get_current_expenses` (window.py lines 205-210): returns the expense
list of the current account, first creating an empty entry if absent.
The mutation of `self.data` is returned as the first component. -/
def get_current_expenses (d : Document) : Document × List Expense :=
  match lookupE d.expenses d.current_account with
  | some l => (d, l)
  | none => ({ d with expenses := dictSet d.expenses d.current_account [] }, [])

/-- Handler `on_account_changed` (window.py lines 122-129): with a valid dropdown
position `i` (the dropdown model mirrors `accounts`, so a non-INVALID
position is an index into it), sets `current_account := accounts[i]` and
saves; the subsequent `update_expense_list` call goes through
`get_current_expenses`, which defensively creates an expense entry for
the newly selected account if it is absent. -/
def on_account_changed (i : ℕ) (d : Document) : Document :=
  match d.accounts[i]? with
  | some a => (get_current_expenses { d with current_account := a }).1
  | none => d

/-- Handler `on_add_account_response` (window.py lines 153-165), in the `"add"`
response case: trims the entered name; if non-empty and not already
present, appends it to `accounts`, creates an empty expense list for it,
saves, and then selects the new account in the dropdown
(`set_selected(accounts.index(name))`), which fires the connected
`on_account_changed` handler at that index. -/
def on_add_account_response (name : String) (d : Document) : Document :=
  let n := pyStrip name
  if n ≠ "" ∧ n ∉ d.accounts then
    let d1 : Document :=
      { d with accounts := d.accounts ++ [n], expenses := dictSet d.expenses n [] }
    on_account_changed (d1.accounts.indexOf n) d1
  else d

/-- Value of a non-empty list of decimal digit characters, most
significant first. -/
def digitsToNat (l : List Char) : ℕ :=
  l.foldl (fun n c => 10 * n + (c.toNat - 48)) 0

/-- Models Python's built-in `float` on an unsigned decimal literal:
`digits`, `digits '.' digits`, `digits '.'` or `'.' digits` (at least one
digit overall).  Exponent, `inf`/`nan` and underscore forms are outside
the inputs this development reasons about. -/
def parseUnsigned (l : List Char) : Option ℚ :=
  let intPart := l.takeWhile Char.isDigit
  match l.dropWhile Char.isDigit with
  | [] => if intPart = [] then none else some (digitsToNat intPart : ℚ)
  | '.' :: frac =>
    if frac.all Char.isDigit ∧ (intPart ≠ [] ∨ frac ≠ []) then
      some ((digitsToNat intPart : ℚ) + (digitsToNat frac : ℚ) / 10 ^ frac.length)
    else none
  | _ => none

/-- Models Python's built-in `float(s)` on decimal literals: strips
whitespace, then an optional sign followed by an unsigned literal. -/
def pyFloat (s : String) : Option ℚ :=
  match (pyStrip s).toList with
  | '+' :: rest => parseUnsigned rest
  | '-' :: rest => (parseUnsigned rest).map (fun q => -q)
  | l => parseUnsigned l

/-- Appends an expense to the current account's list through
`get_current_expenses` (the Python code appends to the aliased list
object held in the dict). -/
def appendCurrent (d : Document) (e : Expense) : Document :=
  let de := get_current_expenses d
  { de.1 with expenses := dictSet de.1.expenses de.1.current_account (de.2 ++ [e]) }

/-- Outcome of `on_add_expense`: silent return on empty input, the
"Invalid Amount" dialog on a `ValueError` from `float`, or the updated
document. -/
inductive AddResult where
  | validationError
  | invalidAmount
  | ok (d : Document)
deriving DecidableEq, Repr

/-- Handler `on_add_expense` (window.py lines 212-256): trims both entries and
silently returns if either is empty; parses the amount after replacing
`,` with `.`, showing the "Invalid Amount" dialog (no state change) if
`float` raises; otherwise appends the new expense (with the supplied
timestamp string) to the current account's list and saves.  The
refreshes that follow re-run `get_current_expenses`, a no-op there since
the entry was just written. -/
def on_add_expense (amountText payeeText date : String) (d : Document) : AddResult :=
  let a := pyStrip amountText
  let p := pyStrip payeeText
  if a = "" ∨ p = "" then .validationError
  else
    match pyFloat (replaceCommaDot a) with
    | none => .invalidAmount
    | some q => .ok (appendCurrent d { amount := q, payee := p, date := date })

/-- Handler `on_delete_expense` (window.py lines 300-308): fetches the current
account's list (creating an empty entry if absent), and if `index` is in
range pops that position and saves; otherwise nothing further happens. -/
def on_delete_expense (index : ℕ) (d : Document) : Document :=
  let de := get_current_expenses d
  if index < de.2.length then
    { de.1 with expenses := dictSet de.1.expenses de.1.current_account (de.2.eraseIdx index) }
  else de.1

/-- The display rows built by `update_expense_list` (window.py lines
258-273): the current account's expenses in reverse order, each paired
with the storage index `len(expenses) - 1 - i` passed to its delete
button. -/
def update_expense_list (d : Document) : List (Expense × ℕ) :=
  let es := (get_current_expenses d).2
  es.reverse.enum.map (fun ie => (ie.2, es.length - 1 - ie.1))

/-- Query `update_payee_suggestions` (window.py lines 92-104): the set of
payees over the expenses of every account (every value of the `expenses`
dict), sorted. -/
def update_payee_suggestions (d : Document) : List String :=
  ((d.expenses.flatMap (fun kv => kv.2.map (·.payee))).dedup).insertionSort (· ≤ ·)

/-- Query `update_total` (window.py lines 310-314): sum of the amounts of the
current account's expenses. -/
def update_total (d : Document) : ℚ :=
  ((get_current_expenses d).2.map (·.amount)).sum

/-- The second normalization loop of `load_data` (window.py lines
191-194): `for account in accounts: if account not in expenses:
expenses[account] = []`. -/
def ensureLists (accs : List String) (m : ExpenseMap) : ExpenseMap :=
  accs.foldl (fun m a => if (lookupE m a).isSome then m else dictSet m a []) m

/-- The normalization step of `load_data` (window.py lines 187-194):
reset `current_account` to `accounts[0]` when absent from `accounts`
(`none` models the uncaught `IndexError` when `accounts` is empty), then
create an empty expense list for every account lacking one. -/
def normalize (d : Document) : Option Document :=
  let cur? := if d.current_account ∈ d.accounts then some d.current_account
              else d.accounts[0]?
  match cur? with
  | none => none
  | some c =>
    some { accounts := d.accounts, current_account := c,
           expenses := ensureLists d.accounts d.expenses }

/-- The parsed content of `expenses.json`: either a JSON object (each of
the three known keys possibly absent) or the legacy top-level array of
expense records.  For a top-level array, the Python membership tests
`'accounts' in loaded_data` etc. check list membership and are false,
since the elements are expense records, not field-name strings. -/
inductive Persisted where
  | obj (accounts : Option (List String)) (current : Option String)
        (expenses : Option ExpenseMap)
  | legacy (l : List Expense)
deriving DecidableEq, Repr

/-- The field-by-field merge of `load_data` (window.py lines 172-183):
each key present in the loaded object overwrites the default; a legacy
top-level array becomes `expenses['Default']`. -/
def mergeLoaded (p : Persisted) (d : Document) : Document :=
  match p with
  | .obj acc cur exp =>
    let d1 := match acc with | some a => { d with accounts := a } | none => d
    let d2 := match cur with | some c => { d1 with current_account := c } | none => d1
    match exp with | some e => { d2 with expenses := e } | none => d2
  | .legacy l => { d with expenses := dictSet d.expenses "Default" l }

/-- Loader `load_data` (window.py lines 167-194): `none` as input models a
missing file or a read/parse failure (the `except: pass` leaves the
defaults); otherwise the parsed file is merged over `defaultDoc`.  The
normalization step then runs outside the `try`. -/
def load_data (p? : Option Persisted) : Option Document :=
  normalize (match p? with
             | some p => mergeLoaded p defaultDoc
             | none => defaultDoc)

/-- Writer `save_data` (window.py lines 196-203): serializes all three fields
of the document. -/
def save_data (d : Document) : Persisted :=
  .obj (some d.accounts) (some d.current_account) (some d.expenses)

/-- One user-level operation on the store, as dispatched by the signal
handlers. -/
inductive Op where
  | createAccount (name : String)
  | selectAccount (i : ℕ)
  | addExpense (amountText payeeText date : String)
  | deleteExpense (i : ℕ)
deriving DecidableEq, Repr

/-- The state effect of one handler invocation (the error outcomes of
`on_add_expense` leave the document untouched). -/
def applyOp (d : Document) : Op → Document
  | .createAccount n => on_add_account_response n d
  | .selectAccount i => on_account_changed i d
  | .addExpense a p dt =>
    match on_add_expense a p dt d with
    | .ok d' => d'
    | _ => d
  | .deleteExpense i => on_delete_expense i d

/-- A sequence of handler invocations, oldest first. -/
def applyOps (d : Document) (ops : List Op) : Document :=
  ops.foldl applyOp d

/-- The document invariants of the data model: `current_account` is an
account, every account has an expense-list entry, and account names are
unique. -/
def Inv (d : Document) : Prop :=
  d.current_account ∈ d.accounts ∧
  (∀ a ∈ d.accounts, (lookupE d.expenses a).isSome) ∧
  d.accounts.Nodup

instance (d : Document) : Decidable (Inv d) := by
  unfold Inv; infer_instance

/-! ## Lemmas about the ordered-dict model -/

theorem lookupE_dictSet (m : ExpenseMap) (k : String) (v : List Expense) (k' : String) :
    lookupE (dictSet m k v) k' = if k = k' then some v else lookupE m k' := by
  induction m with
  | nil => simp [dictSet, lookupE]
  | cons kv rest ih =>
    obtain ⟨k₀, v₀⟩ := kv
    simp only [dictSet]
    by_cases h0 : k₀ = k
    · subst h0
      simp only [if_pos rfl, lookupE]
      by_cases h : k₀ = k' <;> simp [h]
    · simp only [if_neg h0, lookupE, ih]
      by_cases h1 : k₀ = k' <;> by_cases h2 : k = k' <;> simp_all

theorem ensureLists_cons (b : String) (accs : List String) (m : ExpenseMap) :
    ensureLists (b :: accs) m
      = ensureLists accs (if (lookupE m b).isSome then m else dictSet m b []) := rfl

theorem isSome_lookupE_ensureLists (accs : List String) (m : ExpenseMap) (a : String)
    (h : (lookupE m a).isSome) : (lookupE (ensureLists accs m) a).isSome := by
  induction accs generalizing m with
  | nil => exact h
  | cons b accs ih =>
    rw [ensureLists_cons]
    apply ih
    split_ifs with hb
    · exact h
    · rw [lookupE_dictSet]
      split_ifs <;> simp [h]

theorem lookupE_ensureLists_of_mem (accs : List String) (m : ExpenseMap) (a : String)
    (h : a ∈ accs) : (lookupE (ensureLists accs m) a).isSome := by
  induction accs generalizing m with
  | nil => cases h
  | cons b accs ih =>
    rw [ensureLists_cons]
    rcases List.mem_cons.mp h with rfl | h'
    · apply isSome_lookupE_ensureLists
      split_ifs with hb
      · exact hb
      · rw [lookupE_dictSet]
        simp
    · exact ih _ h'

theorem ensureLists_eq_self (accs : List String) (m : ExpenseMap)
    (h : ∀ a ∈ accs, (lookupE m a).isSome) : ensureLists accs m = m := by
  induction accs with
  | nil => rfl
  | cons b accs ih =>
    rw [ensureLists_cons, if_pos (h b (by simp))]
    exact ih fun a ha => h a (by simp [ha])

theorem get_current_expenses_of_lookup (d : Document) (es : List Expense)
    (h : lookupE d.expenses d.current_account = some es) :
    get_current_expenses d = (d, es) := by
  simp [get_current_expenses, h]

/-! ## Lemmas about normalization -/

theorem normalize_eq_some (d d' : Document) (h : normalize d = some d') :
    d'.accounts = d.accounts ∧ d'.current_account ∈ d.accounts ∧
    d'.expenses = ensureLists d.accounts d.expenses := by
  unfold normalize at h
  by_cases hc : d.current_account ∈ d.accounts
  · rw [if_pos hc] at h
    cases h
    exact ⟨rfl, hc, rfl⟩
  · rw [if_neg hc] at h
    cases h0 : d.accounts[0]? with
    | none => rw [h0] at h; cases h
    | some c =>
      rw [h0] at h
      cases h
      exact ⟨rfl, List.getElem?_mem h0, rfl⟩

theorem normalize_isSome (d : Document) (h : d.accounts ≠ []) :
    (normalize d).isSome := by
  unfold normalize
  by_cases hc : d.current_account ∈ d.accounts
  · rw [if_pos hc]
    rfl
  · rw [if_neg hc, List.getElem?_eq_getElem (List.length_pos.mpr h)]
    rfl

theorem Inv_of_normalize (d d' : Document) (hn : normalize d = some d')
    (hd : d.accounts.Nodup) : Inv d' := by
  obtain ⟨ha, hc, he⟩ := normalize_eq_some d d' hn
  refine ⟨ha ▸ hc, ?_, ha ▸ hd⟩
  intro a hmem
  rw [he]
  exact lookupE_ensureLists_of_mem _ _ _ (ha ▸ hmem)

/-! ## Invariant preservation by the handlers -/

theorem lookup_current_isSome (d : Document) (h : Inv d) :
    (lookupE d.expenses d.current_account).isSome :=
  h.2.1 _ h.1

theorem get_current_expenses_fst_of_Inv (d : Document) (h : Inv d) :
    (get_current_expenses d).1 = d := by
  obtain ⟨es, hes⟩ := Option.isSome_iff_exists.mp (lookup_current_isSome d h)
  simp [get_current_expenses, hes]

theorem Inv_dictSet_current (d : Document) (l : List Expense) (h : Inv d) :
    Inv { d with expenses := dictSet d.expenses d.current_account l } := by
  obtain ⟨h1, h2, h3⟩ := h
  refine ⟨h1, ?_, h3⟩
  intro a ha
  simp only [lookupE_dictSet]
  split_ifs with hc
  · rfl
  · exact h2 a ha

theorem Inv_on_account_changed (i : ℕ) (d : Document) (h : Inv d) :
    Inv (on_account_changed i d) := by
  cases h0 : d.accounts[i]? with
  | none => simpa only [on_account_changed, h0] using h
  | some a =>
    have ha : a ∈ d.accounts := List.getElem?_mem h0
    have h1 : Inv { d with current_account := a } := ⟨ha, h.2.1, h.2.2⟩
    simpa only [on_account_changed, h0, get_current_expenses_fst_of_Inv _ h1] using h1

theorem Inv_on_add_account_response (n : String) (d : Document) (h : Inv d) :
    Inv (on_add_account_response n d) := by
  simp only [on_add_account_response]
  split_ifs with hg
  · apply Inv_on_account_changed
    obtain ⟨h1, h2, h3⟩ := h
    refine ⟨List.mem_append_left _ h1, ?_, ?_⟩
    · intro a ha
      simp only [lookupE_dictSet]
      split_ifs with hc
      · rfl
      · rcases List.mem_append.mp ha with ha' | ha'
        · exact h2 a ha'
        · exact absurd (List.mem_singleton.mp ha').symm hc
    · rw [← List.concat_eq_append]
      exact h3.concat hg.2
  · exact h

theorem Inv_appendCurrent (d : Document) (e : Expense) (h : Inv d) :
    Inv (appendCurrent d e) := by
  obtain ⟨es, hes⟩ := Option.isSome_iff_exists.mp (lookup_current_isSome d h)
  simp only [appendCurrent, get_current_expenses_of_lookup d es hes]
  exact Inv_dictSet_current d _ h

theorem Inv_on_delete_expense (i : ℕ) (d : Document) (h : Inv d) :
    Inv (on_delete_expense i d) := by
  obtain ⟨es, hes⟩ := Option.isSome_iff_exists.mp (lookup_current_isSome d h)
  simp only [on_delete_expense, get_current_expenses_of_lookup d es hes]
  split_ifs with hi
  · exact Inv_dictSet_current d _ h
  · exact h

theorem Inv_applyOp (d : Document) (op : Op) (h : Inv d) : Inv (applyOp d op) := by
  cases op with
  | createAccount n => exact Inv_on_add_account_response n d h
  | selectAccount i => exact Inv_on_account_changed i d h
  | addExpense a p dt =>
    simp only [applyOp, on_add_expense]
    split_ifs with hv
    · exact h
    · cases hp : pyFloat (replaceCommaDot (pyStrip a)) with
      | none => exact h
      | some q => exact Inv_appendCurrent d _ h
  | deleteExpense i => exact Inv_on_delete_expense i d h

theorem Inv_applyOps (d : Document) (ops : List Op) (h : Inv d) :
    Inv (applyOps d ops) := by
  induction ops generalizing d with
  | nil => exact h
  | cons op ops ih =>
    simp only [applyOps, List.foldl_cons]
    exact ih _ (Inv_applyOp d op h)

/-! ## The claims -/

/-- C1: for every sequence of createAccount, selectAccount, addExpense,
deleteExpense operations applied to a normalized Document (normalization
of a document with duplicate-free accounts), the resulting state
satisfies: (a) `current_account ∈ accounts`, (b) every account has an
expense-list entry, (c) `accounts` has no duplicate names. -/
theorem C1_invariant_preservation (d0 d : Document) (ops : List Op)
    (hn : normalize d0 = some d) (hnd : d0.accounts.Nodup) :
    Inv (applyOps d ops) :=
  Inv_applyOps d ops (Inv_of_normalize d0 d hn hnd)

theorem C1_invariant_preservation_witness :
    Inv (applyOps ⟨["Default"], "Default", [("Default", [])]⟩
      [.createAccount "Cash", .addExpense "5" "x" "2026-01-01 00:00",
       .selectAccount 0, .deleteExpense 0]) :=
  C1_invariant_preservation ⟨["Default"], "X", []⟩ _ _ (by decide) (by decide)

/-- C2 as stated is false: a successful `createAccount` does change
`current_account`.  `on_add_account_response` ends by selecting the new
account in the dropdown (window.py lines 163-165, "Select the new
account"), which fires the connected `on_account_changed` handler, which
sets `current_account` to the newly selected account. -/
theorem C2_counterexample :
    pyStrip "Cash" ≠ "" ∧ pyStrip "Cash" ∉ defaultDoc.accounts ∧
    (on_add_account_response "Cash" defaultDoc).current_account ≠
      defaultDoc.current_account := by decide

/-- C2 amended: for every non-empty trimmed name not already in
accounts, a successful `createAccount(name)` appends the name to
`accounts`, creates an empty expense list for it, and switches
`current_account` to the new account (via the dropdown selection it
performs). -/
theorem C2_createAccount (name : String) (d : Document)
    (h1 : pyStrip name ≠ "") (h2 : pyStrip name ∉ d.accounts) :
    on_add_account_response name d =
      { accounts := d.accounts ++ [pyStrip name],
        current_account := pyStrip name,
        expenses := dictSet d.expenses (pyStrip name) [] } := by
  simp only [on_add_account_response, if_pos (And.intro h1 h2)]
  have hidx : (d.accounts ++ [pyStrip name]).indexOf (pyStrip name) = d.accounts.length := by
    rw [List.indexOf_append_of_not_mem h2, List.indexOf_cons_self]
    exact Nat.add_zero _
  have hget : (d.accounts ++ [pyStrip name])[d.accounts.length]? = some (pyStrip name) := by
    rw [List.getElem?_append_right (le_refl _)]
    simp
  simp only [on_account_changed, hidx, hget]
  simp [get_current_expenses, lookupE_dictSet]

theorem C2_createAccount_witness :
    on_add_account_response "Cash" defaultDoc =
      { accounts := ["Default", "Cash"], current_account := "Cash",
        expenses := [("Cash", [])] } :=
  C2_createAccount "Cash" defaultDoc (by decide) (by decide)

/-- C3: on a document satisfying the data-model invariants
(`current_account ∈ accounts`, every account has an expense entry),
`save_data` followed by `load_data` yields the identical document. -/
theorem C3_roundtrip (d : Document)
    (h1 : d.current_account ∈ d.accounts)
    (h2 : ∀ a ∈ d.accounts, (lookupE d.expenses a).isSome) :
    load_data (some (save_data d)) = some d := by
  have hm : mergeLoaded (save_data d) defaultDoc = d := by cases d; rfl
  simp only [load_data, hm, normalize, if_pos h1, ensureLists_eq_self _ _ h2]

theorem C3_roundtrip_witness :
    load_data (some (save_data
      ⟨["Default", "Cash"], "Cash", [("Default", [⟨5, "x", "d"⟩]), ("Cash", [])]⟩)) =
    some ⟨["Default", "Cash"], "Cash", [("Default", [⟨5, "x", "d"⟩]), ("Cash", [])]⟩ :=
  C3_roundtrip _ (by decide) (by decide)

/-- C4: `on_add_expense` silently aborts with no state change when
either trimmed input is empty; `"12,50"` and `"12.50"` both parse to
`12.50 = 25/2` (comma replaced by dot before the parse) and the expense
is appended with that amount; a non-numeric amount such as `"abc"`
aborts with the invalid-amount outcome and no state change. -/
theorem C4_addExpense_validation_parse :
    (∀ a p dt d, pyStrip a = "" ∨ pyStrip p = "" →
      on_add_expense a p dt d = .validationError) ∧
    (∀ p dt d, pyStrip p ≠ "" →
      on_add_expense "12,50" p dt d = .ok (appendCurrent d ⟨25/2, pyStrip p, dt⟩) ∧
      on_add_expense "12.50" p dt d = .ok (appendCurrent d ⟨25/2, pyStrip p, dt⟩)) ∧
    (∀ p dt d, pyStrip p ≠ "" → on_add_expense "abc" p dt d = .invalidAmount) := by
  have hv : ((12 : ℚ) + 50 / 10 ^ 2) = 25 / 2 := by norm_num
  have h1 : pyFloat (replaceCommaDot (pyStrip "12,50")) = some ((12 : ℚ) + 50 / 10 ^ 2) := rfl
  have h2 : pyFloat (replaceCommaDot (pyStrip "12.50")) = some ((12 : ℚ) + 50 / 10 ^ 2) := rfl
  refine ⟨?_, ?_, ?_⟩
  · intro a p dt d h
    rcases h with h | h <;> simp [on_add_expense, h]
  · intro p dt d h
    constructor <;>
      simp [on_add_expense, h, h1, h2, hv,
        show pyStrip "12,50" ≠ "" from by decide,
        show pyStrip "12.50" ≠ "" from by decide]
  · intro p dt d h
    simp [on_add_expense, h,
      show pyFloat (replaceCommaDot (pyStrip "abc")) = none from rfl,
      show pyStrip "abc" ≠ "" from by decide]

theorem C4_addExpense_witness :
    on_add_expense "" "x" "dt" defaultDoc = .validationError ∧
    on_add_expense "12,50" "x" "dt" defaultDoc =
      .ok (appendCurrent defaultDoc ⟨25/2, "x", "dt"⟩) ∧
    on_add_expense "12.50" "x" "dt" defaultDoc =
      .ok (appendCurrent defaultDoc ⟨25/2, "x", "dt"⟩) ∧
    on_add_expense "abc" "x" "dt" defaultDoc = .invalidAmount :=
  ⟨C4_addExpense_validation_parse.1 "" "x" "dt" defaultDoc (Or.inl (by decide)),
   (C4_addExpense_validation_parse.2.1 "x" "dt" defaultDoc (by decide)).1,
   (C4_addExpense_validation_parse.2.1 "x" "dt" defaultDoc (by decide)).2,
   C4_addExpense_validation_parse.2.2 "x" "dt" defaultDoc (by decide)⟩

/-- C5: on a document whose current account has an expense-list entry
(the data-model invariant), `on_delete_expense` with an index outside
`[0, length)` leaves the document entirely unchanged, and with an index
inside that range removes exactly the entry at that storage position. -/
theorem C5_deleteExpense (d : Document) (es : List Expense) (i : ℕ)
    (h : lookupE d.expenses d.current_account = some es) :
    (¬ i < es.length → on_delete_expense i d = d) ∧
    (i < es.length →
      on_delete_expense i d =
        { d with expenses := dictSet d.expenses d.current_account (es.eraseIdx i) }) := by
  simp only [on_delete_expense, get_current_expenses_of_lookup d es h]
  constructor <;> intro hi
  · rw [if_neg hi]
  · rw [if_pos hi]

theorem C5_deleteExpense_witness :
    on_delete_expense 5 ⟨["Default"], "Default", [("Default", [⟨1, "x", "dt"⟩])]⟩ =
      ⟨["Default"], "Default", [("Default", [⟨1, "x", "dt"⟩])]⟩ :=
  (C5_deleteExpense _ [⟨1, "x", "dt"⟩] 5 (by decide)).1 (by decide)

/-- C6: when the current account's stored expense list is
`[e1, e2, e3]` (added in that order), the display rows are
`[e3, e2, e1]` paired with storage indices `[2, 1, 0]`. -/
theorem C6_display_order (d : Document) (e1 e2 e3 : Expense)
    (h : lookupE d.expenses d.current_account = some [e1, e2, e3]) :
    update_expense_list d = [(e3, 2), (e2, 1), (e1, 0)] := by
  simp only [update_expense_list, get_current_expenses_of_lookup d _ h]
  rfl

theorem C6_display_order_witness :
    update_expense_list
      ⟨["A"], "A", [("A", [⟨1, "e1", "d1"⟩, ⟨2, "e2", "d2"⟩, ⟨3, "e3", "d3"⟩])]⟩ =
      [(⟨3, "e3", "d3"⟩, 2), (⟨2, "e2", "d2"⟩, 1), (⟨1, "e1", "d1"⟩, 0)] :=
  C6_display_order _ _ _ _ (by decide)

/-- C7: loading a persisted file whose top-level JSON value is a bare
array of expense records yields accounts `["Default"]`, current account
`"Default"`, and that array as the expense list of `"Default"`, without
raising. -/
theorem C7_legacy_load (l : List Expense) :
    load_data (some (.legacy l)) = some ⟨["Default"], "Default", [("Default", l)]⟩ := by
  rfl

/-- C8: the autocomplete suggestions are exactly the payees occurring in
some expense of some account (all accounts, not only the current one),
without duplicates and sorted. -/
theorem C8_suggestions (d : Document) :
    (∀ s, s ∈ update_payee_suggestions d ↔
      ∃ kv ∈ d.expenses, ∃ e ∈ kv.2, e.payee = s) ∧
    (update_payee_suggestions d).Sorted (· ≤ ·) ∧
    (update_payee_suggestions d).Nodup := by
  refine ⟨?_, ?_, ?_⟩
  · intro s
    simp [update_payee_suggestions, List.mem_insertionSort, List.mem_dedup, List.mem_flatMap,
      List.mem_map]
  · exact List.sorted_insertionSort _ _
  · exact (List.perm_insertionSort _ _).nodup_iff.mpr (List.nodup_dedup _)

/-- C9: normalization is idempotent: if normalizing a document succeeds,
normalizing the result again returns it unchanged. -/
theorem C9_normalize_idempotent (d d' : Document) (h : normalize d = some d') :
    normalize d' = some d' := by
  obtain ⟨ha, hc, he⟩ := normalize_eq_some d d' h
  have hcur : d'.current_account ∈ d'.accounts := ha ▸ hc
  have hall : ∀ a ∈ d'.accounts, (lookupE d'.expenses a).isSome := by
    intro a haa
    rw [he]
    exact lookupE_ensureLists_of_mem _ _ _ (ha ▸ haa)
  simp only [normalize, if_pos hcur, ensureLists_eq_self _ _ hall]

theorem C9_normalize_idempotent_witness :
    normalize ⟨["Default"], "Default", [("Default", [])]⟩ =
      some ⟨["Default"], "Default", [("Default", [])]⟩ :=
  C9_normalize_idempotent ⟨["Default"], "X", []⟩ _ (by decide)

/-- C10: the `accounts[0]` access in normalization is safe whenever the
accounts list is non-empty, and a persisted file whose `accounts` field
is the empty list drives `load_data` into the uncaught-IndexError branch
(the merge adopts the loaded empty accounts list unchecked). -/
theorem C10_first_element_access (d : Document) :
    (d.accounts ≠ [] → (normalize d).isSome) ∧
    load_data (some (.obj (some []) none none)) = none :=
  ⟨normalize_isSome d, by decide⟩

theorem C10_first_element_access_witness : (normalize defaultDoc).isSome :=
  (C10_first_element_access defaultDoc).1 (by decide)

end Expenses
